import Mathlib

/-!
Verification of the nomad-nova-autoscaler target plugin (pool reconciliation
and instance-lifecycle engine).

The Go sources under `plugin/` are shallowly embedded below: Go maps become
association lists, provider API calls become explicit function parameters
(oracles) whose invocations are recorded in call traces, and stateful methods
on `TargetPlugin` become functions that take and return the relevant state.
Go `int64` counters are modelled as `Int`/`Nat` (the counters only ever hold
instance counts, far from the overflow range), and Go strings as `String`.
-/

set_option maxRecDepth 10000

namespace NovaScaler

/-- Association-list lookup: first value bound to a key.  Models reading a
Go `map[string]string` together with its `ok` flag (`none` = key absent). -/
def lookupStr : List (String × String) → String → Option String
  | [], _ => none
  | (k, v) :: rest, key => if k = key then some v else lookupStr rest key

/-- Go `map[string]string` read without the `ok` flag: absent keys read as `""`. -/
def getStr (m : List (String × String)) (key : String) : String :=
  (lookupStr m key).getD ""

/-- Association-list lookup with default 0.  Models reading a Go `map[string]int`,
where absent keys read as zero. -/
def lookupNat : List (String × Nat) → String → Nat
  | [], _ => 0
  | (k, v) :: rest, key => if k = key then v else lookupNat rest key

/-- Go map assignment `m[k] = v`: replace the binding if the key is present,
otherwise append a new one. -/
def mapInsert : List (String × String) → String → String → List (String × String)
  | [], k, v => [(k, v)]
  | (k0, v0) :: rest, k, v =>
    if k0 = k then (k, v) :: rest else (k0, v0) :: mapInsert rest k v

/-- Go `delete(m, k)`: remove the binding for `k`. -/
def eraseKey : List (String × String) → String → List (String × String)
  | [], _ => []
  | (k0, v0) :: rest, key =>
    if k0 = key then eraseKey rest key else (k0, v0) :: eraseKey rest key

/-! ## Reconciler direction decision (plugin.go, `calculateDirection`) -/

/-- `calculateDirection(target, desired)` from plugin.go: returns the scaling
magnitude together with the direction string; the empty string is the no-op
direction handled by the `default` branch of `Scale`. -/
def calculateDirection (target desired : Int) : Int × String :=
  if desired < target then (target - desired, "in")
  else if desired > target then (desired - target, "out")
  else (0, "")

/-! ## AZ distributor (util.go, `distributeAZ`) -/

/-- The `azInstanceDist` pairs built by `distributeAZ`. -/
structure AzInstanceDist where
  azName : String
  count : Nat
deriving DecidableEq, Repr

/-- Insert into a count-sorted list, before the first element of strictly
larger count (stable: among equal counts, earlier input stays first). -/
def insertByCount (x : AzInstanceDist) : List AzInstanceDist → List AzInstanceDist
  | [] => [x]
  | y :: ys => if x.count ≤ y.count then x :: y :: ys else y :: insertByCount x ys

/-- Stable ascending sort by count: the embedding of
`sort.SliceStable(azID, func(i, j) { return azID[i].Count < azID[j].Count })`.
Stable insertion sort produces the same list as any stable ascending sort. -/
def sortByCount : List AzInstanceDist → List AzInstanceDist
  | [] => []
  | x :: xs => insertByCount x (sortByCount xs)

/-- `azID[i].Count += 1`. -/
def incCountAt : List AzInstanceDist → Nat → List AzInstanceDist
  | [], _ => []
  | x :: xs, 0 => { x with count := x.count + 1 } :: xs
  | x :: xs, i + 1 => x :: incCountAt xs i

/-- `azID[i].Count` (out-of-range reads 0; the loop never goes out of range). -/
def countAt (l : List AzInstanceDist) (i : Nat) : Nat :=
  (l.getD i { azName := "", count := 0 }).count

/-- `azID[i].AZName` (out-of-range reads ""; the loop never goes out of range). -/
def nameAt (l : List AzInstanceDist) (i : Nat) : String :=
  (l.getD i { azName := "", count := 0 }).azName

/-- Cursor-advance rule of `distributeAZ`, evaluated after the current
entry's count has been incremented: wrap to 0 from the last entry; advance
when the current count exceeds the next; reset to 0 when a non-first entry
has caught up with entry 0; otherwise stay. -/
def nextCursor (azID : List AzInstanceDist) (i : Nat) : Nat :=
  if i + 1 = azID.length then 0
  else if countAt azID i > countAt azID (i + 1) then i + 1
  else if i ≠ 0 ∧ countAt azID i ≥ countAt azID 0 then 0
  else i

/-- The assignment loop of `distributeAZ`: one AZ name per pending slot. -/
def assignLoop : Nat → List AzInstanceDist → Nat → List String
  | 0, _, _ => []
  | n + 1, azID, i =>
    nameAt azID i :: assignLoop n (incCountAt azID i) (nextCursor (incCountAt azID i) i)

/-- The working list `azID` of `distributeAZ`: one pair per candidate AZ,
seeded from `azDist` (0 if absent) and stably sorted ascending by count. -/
def buildAzID (azList : List String) (azDist : List (String × Nat)) : List AzInstanceDist :=
  sortByCount (azList.map (fun az => { azName := az, count := lookupNat azDist az }))

/-- `distributeAZ(azList, azDist, ccd)` from util.go.  The Go function mutates
each slot's `availabilityzone` field; the embedding returns the assigned AZ
name per slot, in slot order (`""` = left unassigned, which happens exactly
when the candidate list is empty). -/
def distributeAZ (azList : List String) (azDist : List (String × Nat)) (slots : Nat) : List String :=
  if (buildAzID azList azDist).length = 0 then List.replicate slots ""
  else assignLoop slots (buildAzID azList azDist) 0

/-- Final per-AZ count after a distribution: initial count plus assigned slots
(this is what `Test_AZDistribution` checks). -/
def finalCount (azDist : List (String × Nat)) (assigns : List String) (az : String) : Nat :=
  lookupNat azDist az + assigns.count az

/-- Largest element of a list of counts (0 for the empty list). -/
def listMax (l : List Nat) : Nat := l.foldr Nat.max 0

/-- Smallest element of a list of counts (0 for the empty list). -/
def listMin : List Nat → Nat
  | [] => 0
  | x :: xs => xs.foldr Nat.min x

/-- Max-min gap across a list of per-AZ counts. -/
def maxMinGap (l : List Nat) : Nat := listMax l - listMin l

/-! ## Resolver cache (openstack.go, `getFlavorInfo` / `getImageID` / `getNetworkID`)

The provider name→ID lookups (`flavorutils.IDFromName` etc.) are passed in as
oracle functions; each resolver returns its result, the updated cache, and the
trace of provider lookups it issued (the list of names it asked the provider
to resolve). -/

/-- Go constant `flavorCacheKey = "flavor:%s"`; with `%s` substitution the
cache key is this plus the name. -/
def flavorCacheKey : String := "flavor:"

/-- Go constant `imageCacheKey = "image:%s"`. -/
def imageCacheKey : String := "image:"

/-- Go constant `networkCacheKey = "network:%s"`. -/
def networkCacheKey : String := "network:"

/-- `cachekey(format, name)` = `fmt.Sprintf(format, name)`; for the three
`"<kind>:%s"` formats used this is concatenation. -/
def cachekey (format name : String) : String := format ++ name

/-- `getFlavorInfo` (openstack.go): flavor ID from config takes priority; on a
cache hit for `flavor:<name>` no provider call happens; on a miss the provider
oracle is consulted once and a successful result is stored in the cache. -/
def getFlavorInfo (flavorIDFromName : String → Except String String)
    (config cache : List (String × String)) :
    Except String String × List (String × String) × List String :=
  match lookupStr config "flavor_id" with
  | some id => (.ok id, cache, [])
  | none =>
    match lookupStr config "flavor_name" with
    | none => (.error "required config param flavor_id or flavor_name", cache, [])
    | some flavorName =>
      match lookupStr cache (cachekey flavorCacheKey flavorName) with
      | some id => (.ok id, cache, [])
      | none =>
        match flavorIDFromName flavorName with
        | .error _ => (.error ("failed to find flavor with name " ++ flavorName), cache, [flavorName])
        | .ok flavorID =>
          (.ok flavorID, mapInsert cache (cachekey flavorCacheKey flavorName) flavorID, [flavorName])

/-- `getImageID` (openstack.go), same shape as `getFlavorInfo` with the
`image:` cache key. -/
def getImageID (imageIDFromName : String → Except String String)
    (config cache : List (String × String)) :
    Except String String × List (String × String) × List String :=
  match lookupStr config "image_id" with
  | some id => (.ok id, cache, [])
  | none =>
    match lookupStr config "image_name" with
    | none => (.error "required config param image_id or image_name", cache, [])
    | some imageName =>
      match lookupStr cache (cachekey imageCacheKey imageName) with
      | some id => (.ok id, cache, [])
      | none =>
        match imageIDFromName imageName with
        | .error e =>
          (.error ("failed to find image with name " ++ imageName ++ ": " ++ e), cache, [imageName])
        | .ok imageID =>
          (.ok imageID, mapInsert cache (cachekey imageCacheKey imageName) imageID, [imageName])

/-- `getNetworkID` (openstack.go), same shape with the `network:` cache key. -/
def getNetworkID (networkIDFromName : String → Except String String)
    (config cache : List (String × String)) :
    Except String String × List (String × String) × List String :=
  match lookupStr config "network_id" with
  | some id => (.ok id, cache, [])
  | none =>
    match lookupStr config "network_name" with
    | none => (.error "required config param network_id or network_name", cache, [])
    | some networkName =>
      match lookupStr cache (cachekey networkCacheKey networkName) with
      | some id => (.ok id, cache, [])
      | none =>
        match networkIDFromName networkName with
        | .error e =>
          (.error ("failed to find network with name " ++ networkName ++ ": " ++ e), cache,
            [networkName])
        | .ok networkID =>
          (.ok networkID, mapInsert cache (cachekey networkCacheKey networkName) networkID,
            [networkName])

/-! ## Plugin configuration (plugin.go, `configurePlugin`)

`time.ParseDuration` is external to the repository, so it is passed in as an
oracle returning a duration (in nanoseconds) or a parse error. -/

/-- Go `strings.TrimSpace`: drop leading and trailing whitespace. -/
def goTrim (s : String) : String :=
  ⟨((s.data.dropWhile Char.isWhitespace).reverse.dropWhile Char.isWhitespace).reverse⟩

/-- Split a character list at every occurrence of `sep`. -/
def splitOnChar (sep : Char) : List Char → List (List Char)
  | [] => [[]]
  | c :: rest =>
    if c = sep then [] :: splitOnChar sep rest
    else
      match splitOnChar sep rest with
      | [] => [[c]]
      | g :: gs => (c :: g) :: gs

/-- Go `strings.Split(s, sep)` for a one-character separator. -/
def goSplit (s : String) (sep : Char) : List String :=
  (splitOnChar sep s.data).map (fun l => ⟨l⟩)

/-- Go `strings.ToUpper` (ASCII range, which covers the state names). -/
def goToUpper (s : String) : String :=
  ⟨s.data.map Char.toUpper⟩

/-- Default timeouts from openstack.go, in seconds. -/
def defaultActionTimeout : Nat := 120

/-- `defaultStatusTImeout = 5 * time.Minute`, in seconds. -/
def defaultStatusTImeout : Nat := 300

/-- `defaultScaleTimeout = 2 * time.Hour`, in seconds. -/
def defaultScaleTimeout : Nat := 7200

/-- The four states that `configurePlugin` refuses to place in the ignore set. -/
def nonIgnorableStates : List String := ["ACTIVE", "BUILD", "REBOOT", "HARD_REBOOT"]

/-- The configuration error produced for an ignored state that cannot be
ignored (Go: `"error setting ignored_states: state '%s' can't be ignored"`;
the quote characters of the Go format string are not reproduced here). -/
def ignoredStateErr (state : String) : String :=
  "error setting ignored_states: state " ++ state ++ " cannot be ignored"

/-- The loop body of `configurePlugin` over the split ignored-states list:
uppercase each entry, reject it if it is one of the four non-ignorable
states, otherwise add it to the ignore set. -/
def buildIgnoredStates : List String → Except String (List String)
  | [] => .ok []
  | name :: rest =>
    if goToUpper name ∈ nonIgnorableStates then .error (ignoredStateErr (goToUpper name))
    else
      match buildIgnoredStates rest with
      | .error e => .error e
      | .ok states => .ok (goToUpper name :: states)

/-- The plugin settings populated by `configurePlugin` (the fields it writes
on `TargetPlugin`). -/
structure PluginSettings where
  actionTimeout : Nat
  scaleTimeout : Nat
  statusTimeout : Nat
  stopBeforeDestroy : Bool
  forceDelete : Bool
  ignoredStates : List String
deriving DecidableEq, Repr

/-- One timeout option of `configurePlugin`: the default when the key is
absent, otherwise the parsed value or a wrapped parse error. -/
def timeoutValue (parseDuration : String → Except String Nat)
    (config : List (String × String)) (key : String) (defaultVal : Nat) :
    Except String Nat :=
  match lookupStr config key with
  | none => .ok defaultVal
  | some s =>
    match parseDuration s with
    | .error e => .error ("failed to parse " ++ key ++ ": " ++ e)
    | .ok d => .ok d

/-- `configurePlugin` (plugin.go): parse the three timeouts, read the two
boolean flags, then validate and store the ignored-states list. -/
def configurePlugin (parseDuration : String → Except String Nat)
    (config : List (String × String)) : Except String PluginSettings :=
  match timeoutValue parseDuration config "action_timeout" defaultActionTimeout with
  | .error e => .error e
  | .ok action =>
    match timeoutValue parseDuration config "scale_timeout" defaultScaleTimeout with
    | .error e => .error e
    | .ok scale =>
      match timeoutValue parseDuration config "status_timeout" defaultStatusTImeout with
      | .error e => .error e
      | .ok status =>
        match
          (match lookupStr config "ignored_states" with
           | some states =>
             if goTrim states ≠ "" then buildIgnoredStates (goSplit (goTrim states) ',')
             else .ok []
           | none => .ok []) with
        | .error e => .error e
        | .ok ignored =>
          .ok { actionTimeout := action, scaleTimeout := scale, statusTimeout := status,
                stopBeforeDestroy := getStr config "stop_first" != "",
                forceDelete := getStr config "force_delete" != "",
                ignoredStates := ignored }

/-! ## Pool inventory (openstack.go, `countServers`) -/

/-- The `customServer` JSON projection used by `countServers`, also standing
in for the provider `servers.Server` records used by `deleteServers` (which
reads only `Name` and `ID`). -/
structure NovaServer where
  id : String
  name : String
  az : String
  status : String
deriving DecidableEq, Repr

/-- The pluggable identity function `idFn`: the instance name by default, the
provider ID when `id_attribute` is configured (`t.idMapper`). -/
def idFnFor (idMapper : Bool) (srv : NovaServer) : String :=
  if idMapper then srv.id else srv.name

/-- `azDist[az] = azDist[az] + 1` on a Go `map[string]int`. -/
def azInc : List (String × Nat) → String → List (String × Nat)
  | [], az => [(az, 1)]
  | (k, v) :: rest, az =>
    if k = az then (k, v + 1) :: rest else (k, v) :: azInc rest az

/-- The accumulators of `countServers`. -/
structure PoolCounts where
  total : Nat
  ready : Nat
  azDist : List (String × Nat)
  remoteIDs : List String
deriving DecidableEq, Repr

/-- Per-server classification step of `countServers`: ignored states
contribute nothing; otherwise ACTIVE also increments `ready`, BUILD, REBOOT
and HARD_REBOOT are silent transitions, any other state is logged as
unexpected; every non-ignored server increments `total`, its AZ tally and
the member-identifier list. -/
def countStep (ignored : List String) (idMapper : Bool) (st : PoolCounts) (srv : NovaServer) :
    PoolCounts :=
  if ignored.contains srv.status then st
  else
    { total := st.total + 1,
      ready := if srv.status = "ACTIVE" then st.ready + 1 else st.ready,
      azDist := azInc st.azDist srv.az,
      remoteIDs := st.remoteIDs ++ [idFnFor idMapper srv] }

/-- One page of the paginated listing. -/
def countPage (ignored : List String) (idMapper : Bool) (st : PoolCounts)
    (page : List NovaServer) : PoolCounts :=
  page.foldl (countStep ignored idMapper) st

/-- `countServers` (openstack.go): aggregate the classification over all pages
of the pool-tagged listing (page decoding assumed successful; a decode error
aborts the scan in the source and no counts are produced). -/
def countServers (ignored : List String) (idMapper : Bool)
    (pages : List (List NovaServer)) : PoolCounts :=
  pages.foldl (countPage ignored idMapper)
    { total := 0, ready := 0, azDist := [], remoteIDs := [] }

/-! ## Reconciler entry point (plugin.go, `Scale`) -/

/-- The part of `sdk.ScalingAction` that `Scale` reads. -/
structure ScalingAction where
  count : Int
deriving DecidableEq, Repr

/-- `sdk.StrategyActionMetaValueDryRunCount`, the dry-run sentinel count of
the autoscaler SDK. -/
def StrategyActionMetaValueDryRunCount : Int := -1

/-- The provider-backed operations `Scale` can invoke, as oracles:
`countServers` yields `(total, azDist, remoteIDs)` for a pool name, and the
two scaling paths report success or failure. -/
structure ScaleDeps where
  countServersOp : String → Except String (Int × List (String × Nat) × List String)
  scaleInOp : Int → List String → List (String × String) → Except String Unit
  scaleOutOp : Int → List (String × Nat) → List (String × String) → Except String Unit

/-- The outer wrapping `Scale` applies to a scaling-path error. -/
def wrapScaleErr : Except String Unit → Except String Unit
  | .ok _ => .ok ()
  | .error e => .error ("failed to perform scaling action: " ++ e)

/-- `Scale` (plugin.go): the dry-run sentinel short-circuits to success;
otherwise the pool is counted and `calculateDirection` picks the scaling
path.  The second component is the trace of provider-backed operations
invoked. -/
def Scale (deps : ScaleDeps) (action : ScalingAction) (config : List (String × String)) :
    Except String Unit × List String :=
  if action.count = StrategyActionMetaValueDryRunCount then (.ok (), [])
  else
    match lookupStr config "pool_name" with
    | none => (.error "required config param pool_name not found", [])
    | some pool =>
      match deps.countServersOp pool with
      | .error e => (.error ("failed to count Nova servers: " ++ e), ["countServers"])
      | .ok (total, azDist, remoteIDs) =>
        let dir := calculateDirection total action.count
        if dir.2 = "in" then
          (wrapScaleErr (deps.scaleInOp dir.1 remoteIDs config), ["countServers", "scaleIn"])
        else if dir.2 = "out" then
          (wrapScaleErr (deps.scaleOutOp dir.1 azDist config), ["countServers", "scaleOut"])
        else (.ok (), ["countServers"])

/-! ## Instance lifecycle driver — delete (openstack.go, `deleteServer`) and
floating-IP attach (`createAndAttachFloatingIP`)

The provider calls issued by `deleteServer` are oracles; the floating-IP map
`t.fipIDs` is passed in and returned explicitly. -/

/-- The provider operations `deleteServer` can issue, as oracles keyed by
instance ID (`fipDelete` is keyed by the floating-IP ID). -/
structure DeleteDeps where
  stopServer : String → Except String Unit
  waitShutoff : String → Except String Unit
  deleteCall : String → Except String Unit
  forceDeleteCall : String → Except String Unit
  waitGone : String → Except String Unit
  fipDelete : String → Except String Unit

/-- The optional stop phase of `deleteServer`: when `t.stopBeforeDestroy` or
the per-call `stopFirst` is set, stop the instance and wait for SHUTOFF. -/
def stopPhase (deps : DeleteDeps) (stopBeforeDestroy stopFirst : Bool)
    (instanceID : String) : Except String Unit :=
  if stopBeforeDestroy || stopFirst then
    match deps.stopServer instanceID with
    | .error e => .error ("failed to stop server id " ++ instanceID ++ ": " ++ e)
    | .ok _ =>
      match deps.waitShutoff instanceID with
      | .error e =>
        .error ("error waiting for server id " ++ instanceID
          ++ " to get to SHUTOFF status: " ++ e)
      | .ok _ => .ok ()
  else .ok ()

/-- The delete call of `deleteServer`: force-delete when `t.forceDelete` or
the per-call flag is set, plain delete otherwise. -/
def deletePhase (deps : DeleteDeps) (fdConfig fdArg : Bool)
    (instanceID : String) : Except String Unit :=
  if fdConfig || fdArg then
    match deps.forceDeleteCall instanceID with
    | .error e => .error ("failed to delete server id " ++ instanceID ++ ": " ++ e)
    | .ok _ => .ok ()
  else
    match deps.deleteCall instanceID with
    | .error e => .error ("failed to delete server id " ++ instanceID ++ ": " ++ e)
    | .ok _ => .ok ()

/-- The floating-IP release step of `deleteServer`: if a floating IP is
recorded for this instance, drop the map entry (before the provider call)
and delete the floating IP. -/
def releaseFip (deps : DeleteDeps) (fipIDs : List (String × String))
    (instanceID : String) : Except String Unit × List (String × String) :=
  match lookupStr fipIDs instanceID with
  | none => (.ok (), fipIDs)
  | some fid =>
    match deps.fipDelete fid with
    | .error e =>
      (.error ("error deleting floating ip for server " ++ instanceID ++ ": " ++ e),
        eraseKey fipIDs instanceID)
    | .ok _ => (.ok (), eraseKey fipIDs instanceID)

/-- `deleteServer` (openstack.go): optional stop + wait for SHUTOFF, then
(force-)delete, wait until the instance is gone, and finally release the
recorded floating IP, if any.  Returns the result together with the updated
floating-IP map. -/
def deleteServer (deps : DeleteDeps) (stopBeforeDestroy stopFirst fdConfig fdArg : Bool)
    (fipIDs : List (String × String)) (instanceID : String) :
    Except String Unit × List (String × String) :=
  match stopPhase deps stopBeforeDestroy stopFirst instanceID with
  | .error e => (.error e, fipIDs)
  | .ok _ =>
    match deletePhase deps fdConfig fdArg instanceID with
    | .error e => (.error e, fipIDs)
    | .ok _ =>
      match deps.waitGone instanceID with
      | .error e =>
        (.error ("error waiting for server id " ++ instanceID ++ " to get to DELETED status: "
          ++ e), fipIDs)
      | .ok _ => releaseFip deps fipIDs instanceID

/-! ## Batch delete in name-scan mode (openstack.go, `deleteServers`,
`!t.idMapper` branch)

The driver lists all pool-tagged instances (given here as pages), matches
them by name against the requested identifiers, deletes matches via the
per-instance delete operation (an oracle), and fails if any requested name
was never seen.  The second component of the result is the trace of instance
IDs successfully deleted, in scan order. -/

/-- `instanceNameMap[id] = false` (Go map write while building the map). -/
def insertFalse : List (String × Bool) → String → List (String × Bool)
  | [], k => [(k, false)]
  | (k0, b) :: rest, k =>
    if k0 = k then (k, false) :: rest else (k0, b) :: insertFalse rest k

/-- The loop `for _, id := range instanceIDs { instanceNameMap[id] = false }`. -/
def initNameMapAux (m : List (String × Bool)) : List String → List (String × Bool)
  | [] => m
  | t :: rest => initNameMapAux (insertFalse m t) rest

/-- The initial `instanceNameMap`: every requested identifier mapped to
`false` (not yet found). -/
def initNameMap (targets : List String) : List (String × Bool) :=
  initNameMapAux [] targets

/-- `_, ok := instanceNameMap[name]`: key-presence test. -/
def containsKeyB (m : List (String × Bool)) (k : String) : Bool :=
  m.any (fun p => p.1 == k)

/-- `instanceNameMap[name] = true` for a name already present as a key. -/
def setFound (m : List (String × Bool)) (k : String) : List (String × Bool) :=
  m.map (fun p => if p.1 = k then (p.1, true) else p)

/-- The inner loop of `deleteServers` over one page: delete servers whose
name is a requested identifier, marking them found; a delete error aborts. -/
def scanServers (del : String → Except String Unit) :
    List NovaServer → List (String × Bool) →
    Except String (List (String × Bool)) × List String
  | [], m => (.ok m, [])
  | s :: rest, m =>
    if containsKeyB m s.name then
      match del s.id with
      | .error e => (.error e, [])
      | .ok _ =>
        let res := scanServers del rest (setFound m s.name)
        (res.1, s.id :: res.2)
    else scanServers del rest m

/-- The page loop (`pager.EachPageWithContext`): an error aborts paging. -/
def scanPages (del : String → Except String Unit) :
    List (List NovaServer) → List (String × Bool) →
    Except String (List (String × Bool)) × List String
  | [], m => (.ok m, [])
  | p :: ps, m =>
    match scanServers del p m with
    | (.error e, tr) => (.error e, tr)
    | (.ok m2, tr) =>
      let res := scanPages del ps m2
      (res.1, tr ++ res.2)

/-- The final check of `deleteServers`: the first still-unfound requested
name, if any (the Go map iteration order is unspecified; the embedding uses
insertion order, which also satisfies the source contract). -/
def firstNotFound : List (String × Bool) → Option String
  | [] => none
  | (k, b) :: rest => if b then firstNotFound rest else some k

/-- The `"instance with name %s not found"` error. -/
def notFoundErr (name : String) : String :=
  "instance with name " ++ name ++ " not found"

/-- `deleteServers` (openstack.go) in name-scan mode: scan all pool pages
deleting matches, then fail on the first requested identifier that was never
matched. -/
def deleteServersNameScan (del : String → Except String Unit) (targets : List String)
    (pages : List (List NovaServer)) : Except String Unit × List String :=
  match scanPages del pages (initNameMap targets) with
  | (.error e, tr) => (.error e, tr)
  | (.ok m2, tr) =>
    match firstNotFound m2 with
    | some name => (.error (notFoundErr name), tr)
    | none => (.ok (), tr)

/-- A delete oracle that always succeeds. -/
def alwaysOkDelete : String → Except String Unit := fun _ => .ok ()

/-- Marking helper used to describe the scan's effect on the name map: each
entry's flag is raised when its key occurs among the scanned names. -/
def markMap (m : List (String × Bool)) (names : List String) : List (String × Bool) :=
  m.map (fun p => (p.1, p.2 || names.contains p.1))

/-- `createAndAttachFloatingIP` (openstack.go): look up the instance's first
port, create a floating IP on the pool network bound to it, and record the
floating-IP ID keyed by the instance ID. -/
def createAndAttachFloatingIP (getPortID : String → Except String String)
    (fipCreate : String → String → Except String String) (networkID serverID : String)
    (fipIDs : List (String × String)) :
    Except String Unit × List (String × String) :=
  match getPortID serverID with
  | .error e => (.error ("error getting instance port ID: " ++ e), fipIDs)
  | .ok portID =>
    match fipCreate networkID portID with
    | .error e => (.error ("error creating floating ip for server " ++ serverID ++ ": " ++ e),
        fipIDs)
    | .ok fipID => (.ok (), mapInsert fipIDs serverID fipID)

/-! ## Lemmas about association-list maps -/

theorem lookupStr_eraseKey_self (m : List (String × String)) (k : String) :
    lookupStr (eraseKey m k) k = none := by
  induction m with
  | nil => rfl
  | cons p rest ih =>
    obtain ⟨k0, v0⟩ := p
    by_cases h : k0 = k
    · simp [eraseKey, h, ih]
    · simp [eraseKey, lookupStr, h, ih]

theorem lookupStr_eraseKey_other (m : List (String × String)) (k k' : String)
    (h : k' ≠ k) :
    lookupStr (eraseKey m k) k' = lookupStr m k' := by
  induction m with
  | nil => rfl
  | cons p rest ih =>
    obtain ⟨k0, v0⟩ := p
    by_cases h0 : k0 = k
    · simp [eraseKey, lookupStr, h0, Ne.symm h, ih]
    · simp [eraseKey, lookupStr, h0, ih]

theorem lookupStr_mapInsert (m : List (String × String)) (k v : String) :
    lookupStr (mapInsert m k v) k = some v := by
  induction m with
  | nil => simp [mapInsert, lookupStr]
  | cons p rest ih =>
    obtain ⟨k0, v0⟩ := p
    by_cases h : k0 = k
    · simp [mapInsert, h, lookupStr]
    · simp [mapInsert, h, lookupStr, ih]

/-! ## Instance lifecycle driver — create (openstack.go, `createServers`;
util.go, `generateUUID`)

`crypto/rand` entropy is modelled as an input: one 16-byte buffer per
instance slot. -/

/-- One lowercase hexadecimal digit (the `%x` digit alphabet of Go `fmt`). -/
def hexDigit (n : Nat) : Char :=
  if n < 10 then Char.ofNat (48 + n) else Char.ofNat (87 + n)

/-- One byte rendered as two lowercase hex digits (Go bytes are mod 256). -/
def byteToHex (b : Nat) : String :=
  String.mk [hexDigit (b % 256 / 16), hexDigit (b % 16)]

/-- A byte slice rendered by `%x`: the bytes' hex digits concatenated. -/
def bytesToHex : List Nat → String
  | [] => ""
  | b :: rest => byteToHex b ++ bytesToHex rest

/-- `generateUUID` (util.go): 16 random bytes formatted with
`"%08x-%04x-%04x-%04x-%12x"` over the slices `[0:4]`, `[4:6]`, `[6:8]`,
`[8:10]`, `[10:16]` — the canonical dashed 8-4-4-4-12 form. -/
def generateUUID (buf : List Nat) : String :=
  bytesToHex (buf.take 4) ++ "-" ++ bytesToHex ((buf.drop 4).take 2) ++ "-"
    ++ bytesToHex ((buf.drop 6).take 2) ++ "-" ++ bytesToHex ((buf.drop 8).take 2) ++ "-"
    ++ bytesToHex ((buf.drop 10).take 6)

/-- The per-instance data built by `createServers` (`customCreateData`). -/
structure CustomCreateData where
  name : String
  availabilityzone : String
  randomUUID : String
deriving DecidableEq, Repr

/-- The fields of `commonCreateData` that determine the per-instance data
(`namePref` embeds the Go field `namePrefix`). -/
structure CommonCreateData where
  name : String
  namePref : String
  availabilityZones : List String
  evenlydistributeAZ : Bool
deriving DecidableEq, Repr

/-- The name-generation loop of `createServers`: each slot gets a fresh
random UUID, and when a name prefix is configured the submitted name is the
prefix plus the first 13 characters of that UUID. -/
def mkCustomData (common : CommonCreateData) (randoms : List (List Nat)) :
    List CustomCreateData :=
  randoms.map (fun bs =>
    { name := if common.namePref ≠ "" then common.namePref ++ (generateUUID bs).take 13
              else common.name,
      availabilityzone := "",
      randomUUID := generateUUID bs })

/-- Applying the AZ assignments of `distributeAZ` to the slots (the Go code
mutates each slot's `availabilityzone` field in order). -/
def assignAZs : List CustomCreateData → List String → List CustomCreateData
  | c :: cs, az :: azs => { c with availabilityzone := az } :: assignAZs cs azs
  | cs, [] => cs
  | [], _ :: _ => []

/-- The slot-preparation part of `createServers` (openstack.go): generate the
per-instance data, then, when `evenly_split_azs` is set, distribute the slots
over the configured AZ list (falling back to the discovered default zones). -/
def createServersData (avZones : List String) (common : CommonCreateData)
    (azDist : List (String × Nat)) (randoms : List (List Nat)) :
    List CustomCreateData :=
  let ccd := mkCustomData common randoms
  if common.evenlydistributeAZ then
    let azList := if common.availabilityZones.length > 0 then common.availabilityZones
                  else avZones
    assignAZs ccd (distributeAZ azList azDist ccd.length)
  else ccd

/-- A character is a lowercase hexadecimal digit. -/
def isHexChar (c : Char) : Bool :=
  (48 ≤ c.toNat && c.toNat ≤ 57) || (97 ≤ c.toNat && c.toNat ≤ 102)

/-- Every character of the string is a lowercase hex digit. -/
def isHexString (s : String) : Bool :=
  s.data.all isHexChar

/-! ## Lemmas about UUID generation and instance naming -/

theorem length_byteToHex (b : Nat) : (byteToHex b).length = 2 := rfl

theorem length_bytesToHex (bs : List Nat) : (bytesToHex bs).length = 2 * bs.length := by
  induction bs with
  | nil => rfl
  | cons b rest ih =>
    show (byteToHex b ++ bytesToHex rest).length = 2 * (rest.length + 1)
    rw [String.length_append, length_byteToHex, ih]
    omega

theorem isHexChar_hexDigit (n : Nat) (h : n < 16) : isHexChar (hexDigit n) = true := by
  interval_cases n <;> decide

theorem isHexString_append (s t : String) :
    isHexString (s ++ t) = (isHexString s && isHexString t) := by
  simp [isHexString, String.data_append, List.all_append]

theorem isHexString_byteToHex (b : Nat) : isHexString (byteToHex b) = true := by
  have h1 : b % 256 / 16 < 16 := by omega
  have h2 : b % 16 < 16 := by omega
  simp [isHexString, byteToHex, isHexChar_hexDigit _ h1, isHexChar_hexDigit _ h2]

theorem isHexString_bytesToHex (bs : List Nat) : isHexString (bytesToHex bs) = true := by
  induction bs with
  | nil => rfl
  | cons b rest ih =>
    show isHexString (byteToHex b ++ bytesToHex rest) = true
    rw [isHexString_append, isHexString_byteToHex, ih]
    rfl

theorem mem_assignAZs (cs : List CustomCreateData) (azs : List String)
    (c : CustomCreateData) (hc : c ∈ assignAZs cs azs) :
    ∃ c0 ∈ cs, c.name = c0.name ∧ c.randomUUID = c0.randomUUID := by
  induction cs generalizing azs with
  | nil => cases azs <;> simp [assignAZs] at hc
  | cons c0 rest ih =>
    cases azs with
    | nil =>
      exact ⟨c, by simpa [assignAZs] using hc, rfl, rfl⟩
    | cons az azs2 =>
      have hstep : assignAZs (c0 :: rest) (az :: azs2)
          = { c0 with availabilityzone := az } :: assignAZs rest azs2 := rfl
      rw [hstep] at hc
      rcases List.mem_cons.mp hc with h | h
      · exact ⟨c0, List.mem_cons_self _ _, by rw [h], by rw [h]⟩
      · rcases ih azs2 h with ⟨c1, hc1, hn, hu⟩
        exact ⟨c1, List.mem_cons_of_mem _ hc1, hn, hu⟩

/-! ## Lemmas about the name-scan delete -/

theorem setFound_cons (k0 : String) (b : Bool) (rest : List (String × Bool)) (k : String) :
    setFound ((k0, b) :: rest) k
      = (if k0 = k then (k0, true) else (k0, b)) :: setFound rest k := by
  by_cases h : k0 = k <;> simp [setFound, h]

theorem markMap_cons (k0 : String) (b : Bool) (rest : List (String × Bool))
    (names : List String) :
    markMap ((k0, b) :: rest) names
      = (k0, b || names.contains k0) :: markMap rest names := rfl

theorem containsKeyB_cons (k0 : String) (b : Bool) (rest : List (String × Bool))
    (k : String) :
    containsKeyB ((k0, b) :: rest) k = ((k0 == k) || containsKeyB rest k) := rfl

theorem containsKeyB_setFound (m : List (String × Bool)) (k k' : String) :
    containsKeyB (setFound m k) k' = containsKeyB m k' := by
  induction m with
  | nil => rfl
  | cons p rest ih =>
    obtain ⟨k0, b⟩ := p
    rw [setFound_cons]
    show (((if k0 = k then (k0, true) else (k0, b)).1 == k')
        || containsKeyB (setFound rest k) k') = ((k0 == k') || containsKeyB rest k')
    rw [ih]
    by_cases h : k0 = k <;> simp [h]

theorem containsKeyB_markMap (m : List (String × Bool)) (names : List String)
    (k : String) :
    containsKeyB (markMap m names) k = containsKeyB m k := by
  induction m with
  | nil => rfl
  | cons p rest ih =>
    obtain ⟨k0, b⟩ := p
    rw [markMap_cons]
    show ((k0 == k) || containsKeyB (markMap rest names) k)
        = ((k0 == k) || containsKeyB rest k)
    rw [ih]

theorem markMap_nil (m : List (String × Bool)) : markMap m [] = m := by
  induction m with
  | nil => rfl
  | cons p rest ih =>
    obtain ⟨k0, b⟩ := p
    rw [markMap_cons, ih]
    simp

theorem markMap_setFound (m : List (String × Bool)) (k : String) (names : List String) :
    markMap (setFound m k) names = markMap m (k :: names) := by
  induction m with
  | nil => rfl
  | cons p rest ih =>
    obtain ⟨k0, b⟩ := p
    rw [setFound_cons]
    by_cases h : k0 = k
    · rw [if_pos h, markMap_cons, markMap_cons, ih]
      subst h
      simp
    · rw [if_neg h, markMap_cons, markMap_cons, ih]
      simp [List.contains_cons, h, Ne.symm h]

theorem markMap_not_key (m : List (String × Bool)) (k : String) (names : List String)
    (hk : containsKeyB m k = false) :
    markMap m (k :: names) = markMap m names := by
  induction m with
  | nil => rfl
  | cons p rest ih =>
    obtain ⟨k0, b⟩ := p
    rw [containsKeyB_cons] at hk
    have h1 : (k0 == k) = false := by
      cases hb : (k0 == k)
      · rfl
      · rw [hb, Bool.true_or] at hk
        exact Bool.noConfusion hk
    have h2 : containsKeyB rest k = false := by
      cases hb : containsKeyB rest k
      · rfl
      · rw [hb, Bool.or_true] at hk
        exact Bool.noConfusion hk
    have hne : ¬ k0 = k := by simpa using h1
    rw [markMap_cons, markMap_cons, ih h2]
    simp [List.contains_cons, hne, Ne.symm hne]

theorem markMap_append (m : List (String × Bool)) (a b : List String) :
    markMap (markMap m a) b = markMap m (a ++ b) := by
  induction m with
  | nil => rfl
  | cons p rest ih =>
    obtain ⟨k0, v⟩ := p
    rw [markMap_cons, markMap_cons, markMap_cons, ih]
    simp [Bool.or_assoc]

theorem scanServers_ok (l : List NovaServer) : ∀ (m : List (String × Bool)),
    scanServers alwaysOkDelete l m
      = (.ok (markMap m (l.map NovaServer.name)),
         (l.filter (fun s => containsKeyB m s.name)).map NovaServer.id) := by
  induction l with
  | nil => intro m; simp [scanServers, markMap_nil]
  | cons s rest ih =>
    intro m
    by_cases hc : containsKeyB m s.name = true
    · have hstep : scanServers alwaysOkDelete (s :: rest) m
          = ((scanServers alwaysOkDelete rest (setFound m s.name)).1,
             s.id :: (scanServers alwaysOkDelete rest (setFound m s.name)).2) := by
        simp only [scanServers, alwaysOkDelete, hc, if_true]
      have hfc : List.filter (fun x => containsKeyB (setFound m s.name) x.name) rest
          = List.filter (fun x => containsKeyB m x.name) rest :=
        List.filter_congr (fun a _ => containsKeyB_setFound m s.name a.name)
      have hfilter : List.filter (fun x => containsKeyB m x.name) (s :: rest)
          = s :: List.filter (fun x => containsKeyB m x.name) rest :=
        List.filter_cons_of_pos hc
      rw [hstep, ih (setFound m s.name), List.map_cons, hfilter, List.map_cons, hfc,
        markMap_setFound]
    · have hcf : containsKeyB m s.name = false := by
        cases hb : containsKeyB m s.name
        · rfl
        · exact absurd hb hc
      have hstep : scanServers alwaysOkDelete (s :: rest) m
          = scanServers alwaysOkDelete rest m := by
        simp only [scanServers, hcf, Bool.false_eq_true, if_false]
      have hfilter : List.filter (fun x => containsKeyB m x.name) (s :: rest)
          = List.filter (fun x => containsKeyB m x.name) rest :=
        List.filter_cons_of_neg hc
      rw [hstep, ih m, List.map_cons, hfilter, markMap_not_key m s.name _ hcf]

theorem scanPages_ok (pages : List (List NovaServer)) : ∀ (m : List (String × Bool)),
    scanPages alwaysOkDelete pages m
      = (.ok (markMap m (pages.flatten.map NovaServer.name)),
         (pages.flatten.filter (fun s => containsKeyB m s.name)).map NovaServer.id) := by
  induction pages with
  | nil => intro m; simp [scanPages, markMap_nil]
  | cons p ps ih =>
    intro m
    have hstep : scanPages alwaysOkDelete (p :: ps) m
        = ((scanPages alwaysOkDelete ps (markMap m (p.map NovaServer.name))).1,
           (p.filter (fun s => containsKeyB m s.name)).map NovaServer.id
             ++ (scanPages alwaysOkDelete ps (markMap m (p.map NovaServer.name))).2) := by
      simp only [scanPages]
      rw [scanServers_ok p m]
    have hfc : List.filter (fun s => containsKeyB (markMap m (p.map NovaServer.name)) s.name)
          ps.flatten
        = List.filter (fun s => containsKeyB m s.name) ps.flatten :=
      List.filter_congr (fun a _ => containsKeyB_markMap m (p.map NovaServer.name) a.name)
    rw [hstep, ih (markMap m (p.map NovaServer.name)), hfc, List.flatten_cons,
      List.map_append, markMap_append, List.filter_append, List.map_append]

theorem containsKeyB_insertFalse (m : List (String × Bool)) (k k' : String) :
    containsKeyB (insertFalse m k) k' = (containsKeyB m k' || (k == k')) := by
  induction m with
  | nil => simp [insertFalse, containsKeyB]
  | cons p rest ih =>
    obtain ⟨k0, b⟩ := p
    by_cases h : k0 = k
    · subst h
      have hins : insertFalse ((k0, b) :: rest) k0 = (k0, false) :: rest := by
        simp [insertFalse]
      rw [hins, containsKeyB_cons, containsKeyB_cons]
      cases hb : (k0 == k') <;> cases hc : containsKeyB rest k' <;> simp [hb, hc]
    · simp only [insertFalse, if_neg h]
      rw [containsKeyB_cons, containsKeyB_cons, ih]
      cases hb : (k0 == k') <;> simp [hb, Bool.or_assoc]

theorem allFalse_insertFalse (m : List (String × Bool)) (k : String)
    (h : ∀ p ∈ m, p.2 = false) :
    ∀ p ∈ insertFalse m k, p.2 = false := by
  induction m with
  | nil =>
    intro p hp
    simp [insertFalse] at hp
    rw [hp]
  | cons q rest ih =>
    obtain ⟨k0, b⟩ := q
    intro p hp
    by_cases hk : k0 = k
    · simp only [insertFalse, if_pos hk] at hp
      rcases List.mem_cons.mp hp with hp | hp
      · rw [hp]
      · exact h p (List.mem_cons_of_mem _ hp)
    · simp only [insertFalse, if_neg hk] at hp
      rcases List.mem_cons.mp hp with hp | hp
      · rw [hp]
        exact h (k0, b) (List.mem_cons_self _ _)
      · exact ih (fun q hq => h q (List.mem_cons_of_mem _ hq)) p hp

theorem beq_comm_str (a b : String) : (a == b) = (b == a) := by
  by_cases h : a = b
  · subst h; rfl
  · have h2 : ¬ b = a := fun hh => h hh.symm
    simp [h, h2]

theorem containsKeyB_initAux (ts : List String) : ∀ (m : List (String × Bool)) (k : String),
    containsKeyB (initNameMapAux m ts) k = (containsKeyB m k || ts.contains k) := by
  induction ts with
  | nil => intro m k; simp [initNameMapAux]
  | cons t rest ih =>
    intro m k
    have hstep : initNameMapAux m (t :: rest) = initNameMapAux (insertFalse m t) rest := rfl
    rw [hstep, ih, containsKeyB_insertFalse, List.contains_cons, Bool.or_assoc,
      beq_comm_str t k]

theorem allFalse_initAux (ts : List String) : ∀ (m : List (String × Bool)),
    (∀ p ∈ m, p.2 = false) → ∀ p ∈ initNameMapAux m ts, p.2 = false := by
  induction ts with
  | nil => intro m h p hp; exact h p hp
  | cons t rest ih =>
    intro m h p hp
    exact ih (insertFalse m t) (allFalse_insertFalse m t h) p hp

theorem containsKeyB_initNameMap (ts : List String) (k : String) :
    containsKeyB (initNameMap ts) k = ts.contains k := by
  unfold initNameMap
  rw [containsKeyB_initAux]
  simp [containsKeyB]

theorem allFalse_initNameMap (ts : List String) :
    ∀ p ∈ initNameMap ts, p.2 = false :=
  allFalse_initAux ts [] (fun p hp => absurd hp (List.not_mem_nil p))

theorem firstNotFound_eq_none (m : List (String × Bool)) :
    firstNotFound m = none ↔ ∀ p ∈ m, p.2 = true := by
  induction m with
  | nil => simp [firstNotFound]
  | cons p rest ih =>
    obtain ⟨k, b⟩ := p
    cases b
    · simp [firstNotFound]
    · simp [firstNotFound, ih]

theorem firstNotFound_some (m : List (String × Bool)) (k : String)
    (h : firstNotFound m = some k) : (k, false) ∈ m := by
  induction m with
  | nil => simp [firstNotFound] at h
  | cons p rest ih =>
    obtain ⟨k0, b⟩ := p
    cases b
    · simp [firstNotFound] at h
      rw [← h]
      exact List.mem_cons_self _ _
    · simp only [firstNotFound] at h
      exact List.mem_cons_of_mem _ (ih (by simpa using h))

theorem containsKeyB_true_iff (m : List (String × Bool)) (k : String) :
    containsKeyB m k = true ↔ ∃ b, (k, b) ∈ m := by
  induction m with
  | nil => simp [containsKeyB]
  | cons p rest ih =>
    obtain ⟨k0, b0⟩ := p
    rw [containsKeyB_cons]
    constructor
    · intro h
      rcases Bool.or_eq_true_iff.mp h with h | h
      · have hk : k0 = k := by simpa using h
        exact ⟨b0, by rw [← hk]; exact List.mem_cons_self _ _⟩
      · rcases ih.mp h with ⟨b, hb⟩
        exact ⟨b, List.mem_cons_of_mem _ hb⟩
    · rintro ⟨b, hb⟩
      rcases List.mem_cons.mp hb with hb | hb
      · have hk : k = k0 := congrArg Prod.fst hb
        apply Bool.or_eq_true_iff.mpr
        exact Or.inl (by simp [hk])
      · exact Bool.or_eq_true_iff.mpr (Or.inr (ih.mpr ⟨b, hb⟩))

/-! ## Lemmas about the pool inventory -/

theorem lookupNat_azInc (m : List (String × Nat)) (az az' : String) :
    lookupNat (azInc m az) az' = lookupNat m az' + (if az' = az then 1 else 0) := by
  induction m with
  | nil =>
    by_cases h : az = az'
    · subst h; simp [azInc, lookupNat]
    · simp [azInc, lookupNat, h, Ne.symm h]
  | cons p rest ih =>
    obtain ⟨k, v⟩ := p
    by_cases hk : k = az
    · subst hk
      by_cases hk2 : k = az'
      · subst hk2; simp [azInc, lookupNat]
      · simp [azInc, lookupNat, hk2, Ne.symm hk2]
    · by_cases hk2 : k = az'
      · subst hk2
        simp [azInc, lookupNat, hk, Ne.symm hk]
      · simp [azInc, lookupNat, hk, hk2, ih]

theorem countPage_spec (ignored : List String) (idMapper : Bool) (hA : "ACTIVE" ∉ ignored) :
    ∀ (page : List NovaServer) (st : PoolCounts),
      (countPage ignored idMapper st page).total
          = st.total + (page.filter (fun v => !(ignored.contains v.status))).length ∧
      (countPage ignored idMapper st page).ready
          = st.ready + (page.filter (fun v => v.status == "ACTIVE")).length ∧
      (∀ az, lookupNat (countPage ignored idMapper st page).azDist az
          = lookupNat st.azDist az +
            (((page.filter (fun v => !(ignored.contains v.status))).filter
                (fun v => v.az == az)).length)) ∧
      (countPage ignored idMapper st page).remoteIDs
          = st.remoteIDs ++
            (page.filter (fun v => !(ignored.contains v.status))).map (idFnFor idMapper) := by
  intro page
  induction page with
  | nil => intro st; simp [countPage]
  | cons srv rest ih =>
    intro st
    have hstep : countPage ignored idMapper st (srv :: rest)
        = countPage ignored idMapper (countStep ignored idMapper st srv) rest := rfl
    by_cases hig : ignored.contains srv.status = true
    · have hskip : countStep ignored idMapper st srv = st := by
        unfold countStep; rw [if_pos hig]
      have hmem : srv.status ∈ ignored := by simpa using hig
      have hpneg : ¬ ((!(ignored.contains srv.status)) = true) := by
        rw [hig]; decide
      have hactneg : ¬ ((srv.status == "ACTIVE") = true) := by
        intro hc
        have hc2 : srv.status = "ACTIVE" := by simpa using hc
        exact hA (hc2 ▸ hmem)
      have hfneg : List.filter (fun v => !(ignored.contains v.status)) (srv :: rest)
          = List.filter (fun v => !(ignored.contains v.status)) rest :=
        List.filter_cons_of_neg hpneg
      have hfact : List.filter (fun v => v.status == "ACTIVE") (srv :: rest)
          = List.filter (fun v => v.status == "ACTIVE") rest :=
        List.filter_cons_of_neg hactneg
      rcases ih st with ⟨h1, h2, h3, h4⟩
      refine ⟨?_, ?_, ?_, ?_⟩
      · rw [hstep, hskip, h1, hfneg]
      · rw [hstep, hskip, h2, hfact]
      · intro az; rw [hstep, hskip, h3 az, hfneg]
      · rw [hstep, hskip, h4, hfneg]
    · have hcf : ignored.contains srv.status = false := by
        cases hb : ignored.contains srv.status
        · rfl
        · exact absurd hb hig
      have hppos : (!(ignored.contains srv.status)) = true := by rw [hcf]; rfl
      have hnew : countStep ignored idMapper st srv
          = { total := st.total + 1,
              ready := if srv.status = "ACTIVE" then st.ready + 1 else st.ready,
              azDist := azInc st.azDist srv.az,
              remoteIDs := st.remoteIDs ++ [idFnFor idMapper srv] } := by
        unfold countStep; rw [if_neg hig]
      have hfpos : List.filter (fun v => !(ignored.contains v.status)) (srv :: rest)
          = srv :: List.filter (fun v => !(ignored.contains v.status)) rest :=
        List.filter_cons_of_pos hppos
      have htotal : (countStep ignored idMapper st srv).total = st.total + 1 := by rw [hnew]
      have hready : (countStep ignored idMapper st srv).ready
          = if srv.status = "ACTIVE" then st.ready + 1 else st.ready := by rw [hnew]
      have hazd : (countStep ignored idMapper st srv).azDist = azInc st.azDist srv.az := by
        rw [hnew]
      have hrem : (countStep ignored idMapper st srv).remoteIDs
          = st.remoteIDs ++ [idFnFor idMapper srv] := by rw [hnew]
      rcases ih (countStep ignored idMapper st srv) with ⟨h1, h2, h3, h4⟩
      refine ⟨?_, ?_, ?_, ?_⟩
      · rw [hstep, h1, htotal, hfpos, List.length_cons]
        omega
      · rw [hstep, h2, hready]
        by_cases ha : srv.status = "ACTIVE"
        · have hq : (srv.status == "ACTIVE") = true := by simpa using ha
          have hfa : List.filter (fun v => v.status == "ACTIVE") (srv :: rest)
              = srv :: List.filter (fun v => v.status == "ACTIVE") rest :=
            List.filter_cons_of_pos hq
          rw [hfa, if_pos ha, List.length_cons]
          omega
        · have hq : ¬ ((srv.status == "ACTIVE") = true) := by simpa using ha
          have hfa : List.filter (fun v => v.status == "ACTIVE") (srv :: rest)
              = List.filter (fun v => v.status == "ACTIVE") rest :=
            List.filter_cons_of_neg hq
          rw [hfa, if_neg ha]
      · intro az
        rw [hstep, h3 az, hazd, hfpos, lookupNat_azInc]
        by_cases haz : srv.az = az
        · have hq : (srv.az == az) = true := by simpa using haz
          have hfz : List.filter (fun v => v.az == az)
                (srv :: List.filter (fun v => !(ignored.contains v.status)) rest)
              = srv :: List.filter (fun v => v.az == az)
                  (List.filter (fun v => !(ignored.contains v.status)) rest) :=
            List.filter_cons_of_pos hq
          rw [hfz, if_pos haz.symm, List.length_cons]
          omega
        · have hq : ¬ ((srv.az == az) = true) := by simpa using haz
          have hfz : List.filter (fun v => v.az == az)
                (srv :: List.filter (fun v => !(ignored.contains v.status)) rest)
              = List.filter (fun v => v.az == az)
                  (List.filter (fun v => !(ignored.contains v.status)) rest) :=
            List.filter_cons_of_neg hq
          have hne : ¬ az = srv.az := fun hh => haz hh.symm
          rw [hfz, if_neg hne]
          omega
      · rw [hstep, h4, hrem, hfpos]
        simp

theorem countServers_eq_flatten (ignored : List String) (idMapper : Bool) :
    ∀ (pages : List (List NovaServer)) (st : PoolCounts),
      pages.foldl (countPage ignored idMapper) st
        = countPage ignored idMapper st pages.flatten := by
  intro pages
  induction pages with
  | nil => intro st; rfl
  | cons p ps ih =>
    intro st
    show ps.foldl (countPage ignored idMapper) (countPage ignored idMapper st p)
        = countPage ignored idMapper st ((p :: ps).flatten)
    rw [ih, List.flatten_cons]
    unfold countPage
    rw [List.foldl_append]

/-! ## Lemmas about the ignored-states validation -/

theorem buildIgnoredStates_error (l : List String)
    (he : ∃ e ∈ l, goToUpper e ∈ nonIgnorableStates) :
    ∃ st, st ∈ nonIgnorableStates ∧ (∃ e ∈ l, goToUpper e = st) ∧
      buildIgnoredStates l = .error (ignoredStateErr st) := by
  induction l with
  | nil => simp at he
  | cons name rest ih =>
    by_cases hb : goToUpper name ∈ nonIgnorableStates
    · exact ⟨goToUpper name, hb, ⟨name, List.mem_cons_self name rest, rfl⟩,
        by simp [buildIgnoredStates, hb]⟩
    · have he2 : ∃ e ∈ rest, goToUpper e ∈ nonIgnorableStates := by
        rcases he with ⟨e, hmem, hup⟩
        rcases List.mem_cons.mp hmem with h | h
        · exact absurd (h ▸ hup) hb
        · exact ⟨e, h, hup⟩
      rcases ih he2 with ⟨st, hst, ⟨e, hmem, heq⟩, herr⟩
      exact ⟨st, hst, ⟨e, List.mem_cons_of_mem name hmem, heq⟩,
        by simp [buildIgnoredStates, hb, herr]⟩

theorem buildIgnoredStates_ok (l : List String)
    (h : ∀ e ∈ l, goToUpper e ∉ nonIgnorableStates) :
    buildIgnoredStates l = .ok (l.map goToUpper) := by
  induction l with
  | nil => rfl
  | cons name rest ih =>
    have hb : goToUpper name ∉ nonIgnorableStates := h name (List.mem_cons_self name rest)
    have hrest := ih (fun e hmem => h e (List.mem_cons_of_mem name hmem))
    simp [buildIgnoredStates, hb, hrest]

/-! ## Lemmas about the AZ distributor -/

theorem mem_insertByCount {a x : AzInstanceDist} {l : List AzInstanceDist} :
    a ∈ insertByCount x l → a = x ∨ a ∈ l := by
  induction l with
  | nil => intro h; simp [insertByCount] at h; exact Or.inl h
  | cons y ys ih =>
    intro h
    simp only [insertByCount] at h
    by_cases hc : x.count ≤ y.count
    · rw [if_pos hc] at h
      rcases List.mem_cons.mp h with h | h
      · exact Or.inl h
      · exact Or.inr h
    · rw [if_neg hc] at h
      rcases List.mem_cons.mp h with h | h
      · exact Or.inr (h ▸ List.mem_cons_self y ys)
      · rcases ih h with h1 | h1
        · exact Or.inl h1
        · exact Or.inr (List.mem_cons_of_mem y h1)

theorem mem_sortByCount {a : AzInstanceDist} {l : List AzInstanceDist} :
    a ∈ sortByCount l → a ∈ l := by
  induction l with
  | nil => intro h; simp [sortByCount] at h
  | cons x xs ih =>
    intro h
    unfold sortByCount at h
    rcases mem_insertByCount h with h1 | h1
    · exact h1 ▸ List.mem_cons_self x xs
    · exact List.mem_cons_of_mem x (ih h1)

theorem length_insertByCount (x : AzInstanceDist) (l : List AzInstanceDist) :
    (insertByCount x l).length = l.length + 1 := by
  induction l with
  | nil => rfl
  | cons y ys ih =>
    unfold insertByCount
    split
    · simp
    · simp [ih]

theorem length_sortByCount (l : List AzInstanceDist) :
    (sortByCount l).length = l.length := by
  induction l with
  | nil => rfl
  | cons x xs ih => unfold sortByCount; rw [length_insertByCount, ih, List.length_cons]

theorem length_incCountAt (l : List AzInstanceDist) (i : Nat) :
    (incCountAt l i).length = l.length := by
  induction l generalizing i with
  | nil => rfl
  | cons x xs ih =>
    cases i with
    | zero => rfl
    | succ j => simp [incCountAt, ih]

theorem map_azName_incCountAt (l : List AzInstanceDist) (i : Nat) :
    (incCountAt l i).map AzInstanceDist.azName = l.map AzInstanceDist.azName := by
  induction l generalizing i with
  | nil => rfl
  | cons x xs ih =>
    cases i with
    | zero => rfl
    | succ j => simp [incCountAt, ih]

theorem nameAt_mem (l : List AzInstanceDist) (i : Nat) (h : i < l.length) :
    nameAt l i ∈ l.map AzInstanceDist.azName := by
  unfold nameAt
  rw [List.getD_eq_getElem l _ h]
  exact List.mem_map_of_mem _ (List.getElem_mem h)

theorem nextCursor_lt (azID : List AzInstanceDist) (i : Nat)
    (h0 : 0 < azID.length) (hi : i < azID.length) :
    nextCursor azID i < azID.length := by
  unfold nextCursor
  split
  · exact h0
  · split
    · omega
    · split
      · exact h0
      · exact hi

theorem assignLoop_mem (n : Nat) :
    ∀ (azID : List AzInstanceDist) (i : Nat), 0 < azID.length → i < azID.length →
      ∀ a ∈ assignLoop n azID i, a ∈ azID.map AzInstanceDist.azName := by
  induction n with
  | zero => intro azID i _ _ a ha; simp [assignLoop] at ha
  | succ m ih =>
    intro azID i h0 hi a ha
    unfold assignLoop at ha
    rcases List.mem_cons.mp ha with ha | ha
    · rw [ha]; exact nameAt_mem azID i hi
    · have h0b : 0 < (incCountAt azID i).length := by rw [length_incCountAt]; exact h0
      have hib : nextCursor (incCountAt azID i) i < (incCountAt azID i).length :=
        nextCursor_lt _ _ h0b (by rw [length_incCountAt]; exact hi)
      have := ih (incCountAt azID i) (nextCursor (incCountAt azID i) i) h0b hib a ha
      rwa [map_azName_incCountAt] at this

theorem length_buildAzID (azList : List String) (azDist : List (String × Nat)) :
    (buildAzID azList azDist).length = azList.length := by
  unfold buildAzID
  rw [length_sortByCount, List.length_map]

theorem azName_mem_of_mem_buildAzID {azList : List String} {azDist : List (String × Nat)}
    {x : AzInstanceDist} (hx : x ∈ buildAzID azList azDist) : x.azName ∈ azList := by
  unfold buildAzID at hx
  rcases List.mem_map.mp (mem_sortByCount hx) with ⟨az, hmemaz, hazx⟩
  have : x.azName = az := by rw [← hazx]
  rw [this]
  exact hmemaz

theorem mem_distributeAZ_of_ne_nil {azList : List String} {azDist : List (String × Nat)}
    {slots : Nat} (hne : azList ≠ []) :
    ∀ a ∈ distributeAZ azList azDist slots, a ∈ azList := by
  intro a ha
  unfold distributeAZ at ha
  have hlen : (buildAzID azList azDist).length = azList.length := length_buildAzID azList azDist
  have h0 : 0 < (buildAzID azList azDist).length := by
    rw [hlen]
    exact List.length_pos.mpr hne
  rw [if_neg (by omega)] at ha
  have hmem := assignLoop_mem slots (buildAzID azList azDist) 0 h0 h0 a ha
  rcases List.mem_map.mp hmem with ⟨x, hx, hxa⟩
  rw [← hxa]
  exact azName_mem_of_mem_buildAzID hx

/-! ## Theorems -/

/-- C1: for every pair of integers `(current, desired)`, `calculateDirection`
returns direction "out" with magnitude `desired - current` iff
`desired > current`; direction "in" with magnitude `current - desired` iff
`desired < current`; and the no-op direction (the empty string, handled by the
`default` branch of `Scale`) with magnitude 0 iff `desired = current`. -/
theorem calculateDirection_spec (current desired : Int) :
    (calculateDirection current desired = (desired - current, "out") ↔ current < desired) ∧
    (calculateDirection current desired = (current - desired, "in") ↔ desired < current) ∧
    (calculateDirection current desired = (0, "") ↔ desired = current) := by
  unfold calculateDirection
  rcases lt_trichotomy desired current with h | h | h
  · rw [if_pos h]
    refine ⟨⟨fun he => ?_, fun hc => absurd hc (not_lt.mpr h.le)⟩,
            ⟨fun _ => h, fun _ => rfl⟩,
            ⟨fun he => ?_, fun hc => absurd hc h.ne⟩⟩
    · have hs : "in" = "out" := congrArg Prod.snd he
      exact absurd hs (by decide)
    · have hs : "in" = "" := congrArg Prod.snd he
      exact absurd hs (by decide)
  · subst h
    rw [if_neg (lt_irrefl _), if_neg (lt_irrefl _)]
    refine ⟨⟨fun he => ?_, fun hc => absurd hc (lt_irrefl _)⟩,
            ⟨fun he => ?_, fun hc => absurd hc (lt_irrefl _)⟩,
            ⟨fun _ => rfl, fun _ => rfl⟩⟩
    · have hs : "" = "out" := congrArg Prod.snd he
      exact absurd hs (by decide)
    · have hs : "" = "in" := congrArg Prod.snd he
      exact absurd hs (by decide)
  · rw [if_neg (not_lt.mpr h.le), if_pos h]
    refine ⟨⟨fun _ => h, fun _ => rfl⟩,
            ⟨fun he => ?_, fun hc => absurd hc (not_lt.mpr h.le)⟩,
            ⟨fun he => ?_, fun hc => absurd hc h.ne'⟩⟩
    · have hs : "out" = "in" := congrArg Prod.snd he
      exact absurd hs (by decide)
    · have hs : "out" = "" := congrArg Prod.snd he
      exact absurd hs (by decide)

/-- C2: distributing 5 slots over candidates `[A, B, C]` starting from counts
`{A:5, B:1, C:3}` yields final per-AZ counts `A = 5`, `B = 5`, `C = 4`
(the multiset `{5, 5, 4}`), and the max-min gap across the three AZs is at
most 1.  This is the "simple distribution" case of `Test_AZDistribution`. -/
theorem distributeAZ_balance_example :
    finalCount [("A", 5), ("B", 1), ("C", 3)]
      (distributeAZ ["A", "B", "C"] [("A", 5), ("B", 1), ("C", 3)] 5) "A" = 5 ∧
    finalCount [("A", 5), ("B", 1), ("C", 3)]
      (distributeAZ ["A", "B", "C"] [("A", 5), ("B", 1), ("C", 3)] 5) "B" = 5 ∧
    finalCount [("A", 5), ("B", 1), ("C", 3)]
      (distributeAZ ["A", "B", "C"] [("A", 5), ("B", 1), ("C", 3)] 5) "C" = 4 ∧
    maxMinGap
      [finalCount [("A", 5), ("B", 1), ("C", 3)]
        (distributeAZ ["A", "B", "C"] [("A", 5), ("B", 1), ("C", 3)] 5) "A",
       finalCount [("A", 5), ("B", 1), ("C", 3)]
        (distributeAZ ["A", "B", "C"] [("A", 5), ("B", 1), ("C", 3)] 5) "B",
       finalCount [("A", 5), ("B", 1), ("C", 3)]
        (distributeAZ ["A", "B", "C"] [("A", 5), ("B", 1), ("C", 3)] 5) "C"] ≤ 1 := by
  decide

/-- C3: every slot assignment made by `distributeAZ` is drawn from the
candidate AZ list (so AZs present only in the current-counts map receive no
slots and keep their counts); concretely, with candidates `[A1]`, counts
`{A1:5, A2:1}` and 3 slots, all three slots are assigned `A1` and the final
counts are `A1 = 8`, `A2 = 1` (the "az removed from list" case of
`Test_AZDistribution`). -/
theorem distributeAZ_candidates_only :
    (∀ (azList : List String) (azDist : List (String × Nat)) (slots : Nat),
      azList ≠ [] → ∀ a ∈ distributeAZ azList azDist slots, a ∈ azList) ∧
    distributeAZ ["A1"] [("A1", 5), ("A2", 1)] 3 = ["A1", "A1", "A1"] ∧
    finalCount [("A1", 5), ("A2", 1)] (distributeAZ ["A1"] [("A1", 5), ("A2", 1)] 3) "A1" = 8 ∧
    finalCount [("A1", 5), ("A2", 1)] (distributeAZ ["A1"] [("A1", 5), ("A2", 1)] 3) "A2" = 1 := by
  refine ⟨fun azList azDist slots hne => mem_distributeAZ_of_ne_nil hne, ?_, ?_, ?_⟩
  · decide
  · decide
  · decide

/-- Witness for C3 at a concrete input: the candidate list `["A1"]` is
nonempty and the theorem instantiated there places the assigned AZ in it. -/
theorem distributeAZ_candidates_only_witness :
    (["A1"] : List String) ≠ [] ∧ "A1" ∈ (["A1"] : List String) :=
  ⟨by decide,
   distributeAZ_candidates_only.1 ["A1"] [("A1", 5), ("A2", 1)] 3 (by decide) "A1" (by decide)⟩

/-- C4: for each resource kind (flavor, image, network), resolving a name that
misses the cache issues exactly one provider lookup and stores the result
under `kind:name`; the immediately following resolution of the same name on
the resulting state returns the identical ID with an empty provider-call
trace. -/
theorem resolverCache_idempotent
    (flavorOracle imageOracle networkOracle : String → Except String String)
    (config cache : List (String × String)) (name id : String) :
    (lookupStr config "flavor_id" = none → lookupStr config "flavor_name" = some name →
      lookupStr cache (cachekey flavorCacheKey name) = none → flavorOracle name = .ok id →
      getFlavorInfo flavorOracle config cache =
        (.ok id, mapInsert cache (cachekey flavorCacheKey name) id, [name]) ∧
      getFlavorInfo flavorOracle config (mapInsert cache (cachekey flavorCacheKey name) id) =
        (.ok id, mapInsert cache (cachekey flavorCacheKey name) id, [])) ∧
    (lookupStr config "image_id" = none → lookupStr config "image_name" = some name →
      lookupStr cache (cachekey imageCacheKey name) = none → imageOracle name = .ok id →
      getImageID imageOracle config cache =
        (.ok id, mapInsert cache (cachekey imageCacheKey name) id, [name]) ∧
      getImageID imageOracle config (mapInsert cache (cachekey imageCacheKey name) id) =
        (.ok id, mapInsert cache (cachekey imageCacheKey name) id, [])) ∧
    (lookupStr config "network_id" = none → lookupStr config "network_name" = some name →
      lookupStr cache (cachekey networkCacheKey name) = none → networkOracle name = .ok id →
      getNetworkID networkOracle config cache =
        (.ok id, mapInsert cache (cachekey networkCacheKey name) id, [name]) ∧
      getNetworkID networkOracle config (mapInsert cache (cachekey networkCacheKey name) id) =
        (.ok id, mapInsert cache (cachekey networkCacheKey name) id, [])) := by
  refine ⟨fun h1 h2 h3 h4 => ⟨?_, ?_⟩, fun h1 h2 h3 h4 => ⟨?_, ?_⟩, fun h1 h2 h3 h4 => ⟨?_, ?_⟩⟩
  · simp [getFlavorInfo, h1, h2, h3, h4]
  · simp [getFlavorInfo, h1, h2, lookupStr_mapInsert]
  · simp [getImageID, h1, h2, h3, h4]
  · simp [getImageID, h1, h2, lookupStr_mapInsert]
  · simp [getNetworkID, h1, h2, h3, h4]
  · simp [getNetworkID, h1, h2, lookupStr_mapInsert]

/-- Witness for C4 at a concrete input: a second flavor resolution on the
cache produced by the first returns the same ID with no provider lookup. -/
theorem resolverCache_idempotent_witness :
    lookupStr [("flavor_name", "f1")] "flavor_id" = none ∧
    getFlavorInfo (fun n => .ok ("id-" ++ n)) [("flavor_name", "f1")]
        (mapInsert [] (cachekey flavorCacheKey "f1") "id-f1") =
      (.ok "id-f1", mapInsert [] (cachekey flavorCacheKey "f1") "id-f1", []) :=
  ⟨by decide,
   ((resolverCache_idempotent (fun n => .ok ("id-" ++ n)) (fun n => .ok ("id-" ++ n))
      (fun n => .ok ("id-" ++ n)) [("flavor_name", "f1")] [] "f1" "id-f1").1
     (by decide) (by decide) (by decide) rfl).2⟩

/-- C5: with the timeout keys absent (so duration parsing is not involved),
`configurePlugin` rejects any ignored-states list containing one of ACTIVE,
BUILD, REBOOT, HARD_REBOOT in any letter case with a configuration error
naming that state, and accepts every list containing none of the four,
storing each entry uppercased. -/
theorem ignoredStates_rejection
    (parseDuration : String → Except String Nat) (config : List (String × String)) (s : String)
    (hA : lookupStr config "action_timeout" = none)
    (hS : lookupStr config "scale_timeout" = none)
    (hT : lookupStr config "status_timeout" = none)
    (hI : lookupStr config "ignored_states" = some s)
    (hNE : goTrim s ≠ "") :
    ((∃ e ∈ goSplit (goTrim s) ',', goToUpper e ∈ nonIgnorableStates) →
      ∃ st, st ∈ nonIgnorableStates ∧ (∃ e ∈ goSplit (goTrim s) ',', goToUpper e = st) ∧
        configurePlugin parseDuration config = .error (ignoredStateErr st)) ∧
    ((∀ e ∈ goSplit (goTrim s) ',', goToUpper e ∉ nonIgnorableStates) →
      ∃ ps, configurePlugin parseDuration config = .ok ps ∧
        ps.ignoredStates = (goSplit (goTrim s) ',').map goToUpper) := by
  constructor
  · intro he
    rcases buildIgnoredStates_error _ he with ⟨st, hst, hmem, herr⟩
    exact ⟨st, hst, hmem,
      by simp [configurePlugin, timeoutValue, hA, hS, hT, hI, hNE, herr]⟩
  · intro hall
    refine ⟨{ actionTimeout := defaultActionTimeout, scaleTimeout := defaultScaleTimeout,
              statusTimeout := defaultStatusTImeout,
              stopBeforeDestroy := getStr config "stop_first" != "",
              forceDelete := getStr config "force_delete" != "",
              ignoredStates := (goSplit (goTrim s) ',').map goToUpper }, ?_, rfl⟩
    simp [configurePlugin, timeoutValue, hA, hS, hT, hI, hNE, buildIgnoredStates_ok _ hall]

/-- Witness for C5 at a concrete input: configuring `ignored_states =
"active"` fails setup with the configuration error naming ACTIVE. -/
theorem ignoredStates_rejection_witness :
    configurePlugin (fun _ => .ok 0) [("ignored_states", "active")] =
      .error (ignoredStateErr "ACTIVE") := by
  obtain ⟨st, hst, ⟨e, he, heq⟩, herr⟩ :=
    (ignoredStates_rejection (fun _ => .ok 0) [("ignored_states", "active")] "active"
      (by decide) (by decide) (by decide) (by decide) (by decide)).1
      ⟨"active", by decide, by decide⟩
  have hsplit : goSplit (goTrim "active") ',' = ["active"] := by decide
  rw [hsplit] at he
  have he2 : e = "active" := by simpa using he
  subst he2
  have hst2 : st = "ACTIVE" := by rw [← heq]; decide
  subst hst2
  exact herr

/-- C7: `Scale` with an action whose count equals the dry-run sentinel
returns success immediately, with an empty provider-call trace (no provider
call, no state change). -/
theorem scale_dryRun (deps : ScaleDeps) (action : ScalingAction)
    (config : List (String × String))
    (h : action.count = StrategyActionMetaValueDryRunCount) :
    Scale deps action config = (.ok (), []) := by
  unfold Scale
  rw [if_pos h]

/-- Witness for C7 at a concrete input: a dry-run action against oracles that
would fail if invoked still returns success with no call recorded. -/
theorem scale_dryRun_witness :
    Scale ⟨fun _ => .error "must not be called", fun _ _ _ => .error "must not be called",
           fun _ _ _ => .error "must not be called"⟩ ⟨-1⟩ [("pool_name", "p1")] =
      (.ok (), []) :=
  scale_dryRun _ _ _ rfl

/-- C8: `countServers` classification — servers in the ignore set contribute
to none of the outputs; with ACTIVE not ignorable, `total` is the number of
non-ignored servers, `ready` the number of ACTIVE servers, and every
non-ignored server (ACTIVE, the BUILD/REBOOT/HARD_REBOOT transitions, and
any unexpected state alike) contributes to the AZ distribution and the
member-identifier list. -/
theorem countServers_classification (ignored : List String) (idMapper : Bool)
    (pages : List (List NovaServer)) (hA : "ACTIVE" ∉ ignored) :
    (countServers ignored idMapper pages).total
        = (pages.flatten.filter (fun v => !(ignored.contains v.status))).length ∧
    (countServers ignored idMapper pages).ready
        = (pages.flatten.filter (fun v => v.status == "ACTIVE")).length ∧
    (∀ az, lookupNat (countServers ignored idMapper pages).azDist az
        = ((pages.flatten.filter (fun v => !(ignored.contains v.status))).filter
            (fun v => v.az == az)).length) ∧
    (countServers ignored idMapper pages).remoteIDs
        = (pages.flatten.filter (fun v => !(ignored.contains v.status))).map
            (idFnFor idMapper) := by
  have hjoin := countServers_eq_flatten ignored idMapper pages
    { total := 0, ready := 0, azDist := [], remoteIDs := [] }
  rcases countPage_spec ignored idMapper hA pages.flatten
      { total := 0, ready := 0, azDist := [], remoteIDs := [] } with ⟨h1, h2, h3, h4⟩
  unfold countServers
  rw [hjoin]
  refine ⟨by rw [h1]; simp, by rw [h2]; simp, fun az => ?_, by rw [h4]; simp⟩
  rw [h3 az]
  simp [lookupNat]

/-- Witness for C8 at a concrete input: one page with an ACTIVE, a BUILD, an
ERROR-state and an ignored SHUTOFF server, with `ignored = ["SHUTOFF"]`:
total counts the three non-ignored servers and ready only the ACTIVE one. -/
theorem countServers_classification_witness :
    ¬ "ACTIVE" ∈ ["SHUTOFF"] ∧
    (countServers ["SHUTOFF"] false
        [[⟨"i1", "n1", "az1", "ACTIVE"⟩, ⟨"i2", "n2", "az1", "BUILD"⟩],
         [⟨"i3", "n3", "az2", "ERROR"⟩, ⟨"i4", "n4", "az2", "SHUTOFF"⟩]]).total = 3 ∧
    (countServers ["SHUTOFF"] false
        [[⟨"i1", "n1", "az1", "ACTIVE"⟩, ⟨"i2", "n2", "az1", "BUILD"⟩],
         [⟨"i3", "n3", "az2", "ERROR"⟩, ⟨"i4", "n4", "az2", "SHUTOFF"⟩]]).ready = 1 :=
  ⟨by decide,
   ((countServers_classification ["SHUTOFF"] false
      [[⟨"i1", "n1", "az1", "ACTIVE"⟩, ⟨"i2", "n2", "az1", "BUILD"⟩],
       [⟨"i3", "n3", "az2", "ERROR"⟩, ⟨"i4", "n4", "az2", "SHUTOFF"⟩]]
      (by decide)).1).trans (by decide),
   ((countServers_classification ["SHUTOFF"] false
      [[⟨"i1", "n1", "az1", "ACTIVE"⟩, ⟨"i2", "n2", "az1", "BUILD"⟩],
       [⟨"i3", "n3", "az2", "ERROR"⟩, ⟨"i4", "n4", "az2", "SHUTOFF"⟩]]
      (by decide)).2.1).trans (by decide)⟩

/-- C10: when `deleteServer` reaches the floating-IP release step (the stop,
delete and wait phases succeed) for an instance with a recorded floating-IP
identifier, the map entry is removed before the floating-IP delete call is
issued, so the returned map has no entry for the instance whether that call
succeeds or fails, and every other instance's entry is unchanged. -/
theorem deleteServer_fip_erased (deps : DeleteDeps) (sbd sf fdc fda : Bool)
    (fipIDs : List (String × String)) (instanceID fipID : String)
    (hfip : lookupStr fipIDs instanceID = some fipID)
    (hStop : deps.stopServer instanceID = .ok ())
    (hWaitS : deps.waitShutoff instanceID = .ok ())
    (hDel : deps.deleteCall instanceID = .ok ())
    (hFDel : deps.forceDeleteCall instanceID = .ok ())
    (hGone : deps.waitGone instanceID = .ok ()) :
    (deleteServer deps sbd sf fdc fda fipIDs instanceID).2 = eraseKey fipIDs instanceID ∧
    lookupStr (deleteServer deps sbd sf fdc fda fipIDs instanceID).2 instanceID = none ∧
    (∀ k, k ≠ instanceID →
      lookupStr (deleteServer deps sbd sf fdc fda fipIDs instanceID).2 k
        = lookupStr fipIDs k) := by
  have hstopRes : stopPhase deps sbd sf instanceID = .ok () := by
    unfold stopPhase
    by_cases hs : (sbd || sf) = true
    · rw [if_pos hs, hStop, hWaitS]
    · rw [if_neg hs]
  have hdelRes : deletePhase deps fdc fda instanceID = .ok () := by
    unfold deletePhase
    by_cases hd : (fdc || fda) = true
    · rw [if_pos hd, hFDel]
    · rw [if_neg hd, hDel]
  have hrel : (releaseFip deps fipIDs instanceID).2 = eraseKey fipIDs instanceID := by
    unfold releaseFip
    simp only [hfip]
    cases hfd : deps.fipDelete fipID <;> rfl
  have hmain : (deleteServer deps sbd sf fdc fda fipIDs instanceID).2
      = eraseKey fipIDs instanceID := by
    unfold deleteServer
    rw [hstopRes, hdelRes, hGone]
    exact hrel
  refine ⟨hmain, ?_, ?_⟩
  · rw [hmain]
    exact lookupStr_eraseKey_self fipIDs instanceID
  · intro k hk
    rw [hmain]
    exact lookupStr_eraseKey_other fipIDs instanceID k hk

/-- Witness for C10 at a concrete input: all pre-release phases succeed, the
floating-IP delete fails, and the entry for `i1` is still gone while `i2`
keeps its entry. -/
theorem deleteServer_fip_erased_witness :
    lookupStr [("i1", "f1"), ("i2", "f2")] "i1" = some "f1" ∧
    (deleteServer
        ⟨fun _ => .ok (), fun _ => .ok (), fun _ => .ok (), fun _ => .ok (), fun _ => .ok (),
         fun _ => .error "boom"⟩ false false false false
        [("i1", "f1"), ("i2", "f2")] "i1").2 = [("i2", "f2")] ∧
    lookupStr (deleteServer
        ⟨fun _ => .ok (), fun _ => .ok (), fun _ => .ok (), fun _ => .ok (), fun _ => .ok (),
         fun _ => .error "boom"⟩ false false false false
        [("i1", "f1"), ("i2", "f2")] "i1").2 "i1" = none :=
  ⟨by decide,
   ((deleteServer_fip_erased
      ⟨fun _ => .ok (), fun _ => .ok (), fun _ => .ok (), fun _ => .ok (), fun _ => .ok (),
       fun _ => .error "boom"⟩ false false false false
      [("i1", "f1"), ("i2", "f2")] "i1" "f1"
      (by decide) rfl rfl rfl rfl rfl).1).trans (by decide),
   (deleteServer_fip_erased
      ⟨fun _ => .ok (), fun _ => .ok (), fun _ => .ok (), fun _ => .ok (), fun _ => .ok (),
       fun _ => .error "boom"⟩ false false false false
      [("i1", "f1"), ("i2", "f2")] "i1" "f1"
      (by decide) rfl rfl rfl rfl rfl).2.1⟩

/-- C6: in name-scan delete mode with per-instance deletions succeeding, the
instances deleted are exactly the pool-listed servers whose name is among the
requested identifiers (in scan order); if some requested identifier matches
no listed server, `deleteServers` returns a not-found error naming such an
identifier; if every identifier matches, no not-found error is returned. -/
theorem deleteServers_notFound (targets : List String) (pages : List (List NovaServer)) :
    (deleteServersNameScan alwaysOkDelete targets pages).2
      = (pages.flatten.filter (fun s => targets.contains s.name)).map NovaServer.id ∧
    ((∃ t, t ∈ targets ∧ ¬ t ∈ pages.flatten.map NovaServer.name) →
      ∃ t, t ∈ targets ∧ ¬ t ∈ pages.flatten.map NovaServer.name ∧
        (deleteServersNameScan alwaysOkDelete targets pages).1
          = .error (notFoundErr t)) ∧
    ((∀ t ∈ targets, t ∈ pages.flatten.map NovaServer.name) →
      (deleteServersNameScan alwaysOkDelete targets pages).1 = .ok ()) := by
  have hscan := scanPages_ok pages (initNameMap targets)
  have hd : deleteServersNameScan alwaysOkDelete targets pages
      = (match firstNotFound (markMap (initNameMap targets)
            (pages.flatten.map NovaServer.name)) with
         | some name => (Except.error (notFoundErr name),
             (pages.flatten.filter (fun s =>
               containsKeyB (initNameMap targets) s.name)).map NovaServer.id)
         | none => (Except.ok (),
             (pages.flatten.filter (fun s =>
               containsKeyB (initNameMap targets) s.name)).map NovaServer.id)) := by
    unfold deleteServersNameScan
    rw [hscan]
  have hfc : pages.flatten.filter (fun s => containsKeyB (initNameMap targets) s.name)
      = pages.flatten.filter (fun s => targets.contains s.name) :=
    List.filter_congr (fun a _ => containsKeyB_initNameMap targets a.name)
  refine ⟨?_, ?_, ?_⟩
  · rw [hd]
    cases hnf : firstNotFound (markMap (initNameMap targets)
        (pages.flatten.map NovaServer.name))
    · exact congrArg (List.map NovaServer.id) hfc
    · exact congrArg (List.map NovaServer.id) hfc
  · rintro ⟨t, ht, hnm⟩
    have hkey : containsKeyB (initNameMap targets) t = true := by
      rw [containsKeyB_initNameMap]
      simpa using ht
    obtain ⟨b0, hb0⟩ := (containsKeyB_true_iff _ t).mp hkey
    have hb0f : b0 = false := allFalse_initNameMap targets (t, b0) hb0
    subst hb0f
    have hcont : (pages.flatten.map NovaServer.name).contains t = false := by
      cases hb : (pages.flatten.map NovaServer.name).contains t
      · rfl
      · exact absurd (by simpa using hb) hnm
    have hf2 : ((t, false || (pages.flatten.map NovaServer.name).contains t) :
        String × Bool) = (t, false) := by rw [hcont]; rfl
    have hmem2 : (t, false) ∈ markMap (initNameMap targets)
        (pages.flatten.map NovaServer.name) :=
      List.mem_map.mpr ⟨(t, false), hb0, hf2⟩
    have hne : firstNotFound (markMap (initNameMap targets)
        (pages.flatten.map NovaServer.name)) ≠ none := by
      intro hnone
      have hall := (firstNotFound_eq_none _).mp hnone
      exact Bool.noConfusion (hall (t, false) hmem2)
    cases hnf : firstNotFound (markMap (initNameMap targets)
        (pages.flatten.map NovaServer.name)) with
    | none => exact absurd hnf hne
    | some tBad =>
      have hmem' := firstNotFound_some _ tBad hnf
      obtain ⟨p0, hp0, hfp⟩ := List.mem_map.mp hmem'
      have hk' : p0.1 = tBad := congrArg Prod.fst hfp
      have hv' : (p0.2 || (pages.flatten.map NovaServer.name).contains p0.1) = false :=
        congrArg Prod.snd hfp
      have hcont' : (pages.flatten.map NovaServer.name).contains p0.1 = false := by
        cases hb : (pages.flatten.map NovaServer.name).contains p0.1
        · rfl
        · rw [hb, Bool.or_true] at hv'
          exact Bool.noConfusion hv'
      have htB : tBad ∈ targets := by
        have hk : containsKeyB (initNameMap targets) p0.1 = true :=
          (containsKeyB_true_iff _ _).mpr ⟨p0.2, by rw [Prod.mk.eta]; exact hp0⟩
        rw [containsKeyB_initNameMap] at hk
        rw [← hk']
        simpa using hk
      have hnmB : ¬ tBad ∈ pages.flatten.map NovaServer.name := by
        rw [← hk']
        intro hmem
        have hc2 : (pages.flatten.map NovaServer.name).contains p0.1 = true := by
          simpa using hmem
        rw [hc2] at hcont'
        exact Bool.noConfusion hcont'
      refine ⟨tBad, htB, hnmB, ?_⟩
      rw [hd, hnf]
  · intro hall
    have hnone : firstNotFound (markMap (initNameMap targets)
        (pages.flatten.map NovaServer.name)) = none := by
      apply (firstNotFound_eq_none _).mpr
      intro p hp
      obtain ⟨p0, hp0, hfp⟩ := List.mem_map.mp hp
      have hk : containsKeyB (initNameMap targets) p0.1 = true :=
        (containsKeyB_true_iff _ _).mpr ⟨p0.2, by rw [Prod.mk.eta]; exact hp0⟩
      rw [containsKeyB_initNameMap] at hk
      have htmem : p0.1 ∈ targets := by simpa using hk
      have hn : p0.1 ∈ pages.flatten.map NovaServer.name := hall _ htmem
      have hc : (pages.flatten.map NovaServer.name).contains p0.1 = true := by
        simpa using hn
      rw [← hfp]
      show (p0.2 || (pages.flatten.map NovaServer.name).contains p0.1) = true
      rw [hc, Bool.or_true]
    rw [hd, hnone]

/-- Witness for C6 at a concrete input: requesting deletion of `a` and `b`
when only a server named `a` is listed deletes `i1` and fails with the
not-found error naming `b`. -/
theorem deleteServers_notFound_witness :
    (deleteServersNameScan alwaysOkDelete ["a", "b"]
        [[⟨"i1", "a", "z", "ACTIVE"⟩]]).1 = .error (notFoundErr "b") := by
  obtain ⟨t, ht, hnm, herr⟩ :=
    (deleteServers_notFound ["a", "b"] [[⟨"i1", "a", "z", "ACTIVE"⟩]]).2.1
      ⟨"b", by decide, by decide⟩
  rcases List.mem_cons.mp ht with h | h
  · exfalso
    apply hnm
    rw [h]
    decide
  · have ht2 : t = "b" := by simpa using h
    rw [ht2] at herr
    exact herr

/-- C9: in a scale-out batch with a name prefix configured (and no explicit
name), every prepared instance's submitted name is the prefix followed by
the first 13 characters of that instance's freshly generated random UUID,
and the UUID is the 128-bit (16-byte) value rendered in canonical dashed hex
form 8-4-4-4-12 (those 13 characters are the `8-4` head of the rendering:
12 hex digits and one dash). -/
theorem createServers_name_from_uuid
    (avZones : List String) (common : CommonCreateData) (azDist : List (String × Nat))
    (randoms : List (List Nat)) (custom : CustomCreateData)
    (hp : common.namePref ≠ "") (hname : common.name = "")
    (hlen : ∀ bs ∈ randoms, bs.length = 16)
    (hmem : custom ∈ createServersData avZones common azDist randoms) :
    custom.name = common.namePref ++ custom.randomUUID.take 13 ∧
    (∃ bs, bs ∈ randoms ∧ custom.randomUUID = generateUUID bs) ∧
    (∃ g1 g2 g3 g4 g5, custom.randomUUID
        = g1 ++ "-" ++ g2 ++ "-" ++ g3 ++ "-" ++ g4 ++ "-" ++ g5
      ∧ g1.length = 8 ∧ g2.length = 4 ∧ g3.length = 4 ∧ g4.length = 4 ∧ g5.length = 12
      ∧ isHexString (g1 ++ g2 ++ g3 ++ g4 ++ g5) = true) := by
  have hmem0 : ∃ c0 ∈ mkCustomData common randoms,
      custom.name = c0.name ∧ custom.randomUUID = c0.randomUUID := by
    simp only [createServersData] at hmem
    by_cases he : common.evenlydistributeAZ = true
    · rw [if_pos he] at hmem
      exact mem_assignAZs _ _ _ hmem
    · rw [if_neg he] at hmem
      exact ⟨custom, hmem, rfl, rfl⟩
  obtain ⟨c0, hc0, hname2, huuid⟩ := hmem0
  obtain ⟨bs, hbs, hceq⟩ := List.mem_map.mp hc0
  have hn : c0.name = common.namePref ++ (generateUUID bs).take 13 := by
    rw [← hceq]
    simp [hp]
  have hu : c0.randomUUID = generateUUID bs := by rw [← hceq]
  refine ⟨by rw [hname2, hn, huuid, hu], ⟨bs, hbs, by rw [huuid, hu]⟩, ?_⟩
  rw [huuid, hu]
  have hblen := hlen bs hbs
  refine ⟨bytesToHex (bs.take 4), bytesToHex ((bs.drop 4).take 2),
          bytesToHex ((bs.drop 6).take 2), bytesToHex ((bs.drop 8).take 2),
          bytesToHex ((bs.drop 10).take 6), ?_, ?_, ?_, ?_, ?_, ?_, ?_⟩
  · unfold generateUUID
    rfl
  · rw [length_bytesToHex, List.length_take, hblen]
    rfl
  · rw [length_bytesToHex, List.length_take, List.length_drop, hblen]
    rfl
  · rw [length_bytesToHex, List.length_take, List.length_drop, hblen]
    rfl
  · rw [length_bytesToHex, List.length_take, List.length_drop, hblen]
    rfl
  · rw [length_bytesToHex, List.length_take, List.length_drop, hblen]
    rfl
  · simp [isHexString_append, isHexString_bytesToHex]

/-- Witness for C9 at a concrete input: one slot, prefix `srv-`, all-zero
entropy: the submitted name is `srv-` plus the 13-character head of the
generated UUID. -/
theorem createServers_name_from_uuid_witness :
    ("srv-" : String) ≠ "" ∧
    ({ name := "srv-00000000-0000", availabilityzone := "",
       randomUUID := "00000000-0000-0000-0000-000000000000" } : CustomCreateData).name
      = "srv-" ++ ("00000000-0000-0000-0000-000000000000" : String).take 13 :=
  ⟨by decide,
   (createServers_name_from_uuid [] ⟨"", "srv-", [], false⟩ [] [List.replicate 16 0]
      ⟨"srv-00000000-0000", "", "00000000-0000-0000-0000-000000000000"⟩
      (by decide) rfl (by decide) (by decide)).1⟩

end NovaScaler
